import Mathlib

/-!
Verification development for the two translation scripts of the
hugo-eternal-blogs repository: `scripts/translate_content.py` (batch) and
`scripts/translate_local.py` (single file).  The Python code is shallowly
embedded: external effects (environment variables, the file system, the
HTTP endpoint, the heuristic language detector, interactive input) are
passed in as explicit oracles, and the write performed by a run is part of
the returned value.
-/

namespace TranslateScripts

/-- Python `str.startswith`.  (Defined over `String.data` so that proofs
can evaluate it on concrete inputs.) -/
def strStartsWith (s p : String) : Bool :=
  p.data.isPrefixOf s.data

/-- Python `str.endswith`. -/
def strEndsWith (s p : String) : Bool :=
  p.data.isSuffixOf s.data

/-- Python `str.strip()`: drop leading and trailing whitespace. -/
def strip (s : String) : String :=
  ⟨((s.data.dropWhile Char.isWhitespace).reverse.dropWhile Char.isWhitespace).reverse⟩

/-- Python `str.lower()` on one character (ASCII range, which is all the
scripts compare against: the literal `'y'`). -/
def lowerChar (c : Char) : Char :=
  if 65 ≤ c.toNat ∧ c.toNat ≤ 90 then Char.ofNat (c.toNat + 32) else c

/-- Python `str.lower()`. -/
def strToLower (s : String) : String :=
  ⟨s.data.map lowerChar⟩

/-- A file path, already decomposed the way `pathlib.Path` exposes it:
`parent` is the directory, `stem` the file name without its final
extension, `ext` the final extension including the leading dot
(`Path.suffix`). -/
structure FPath where
  parent : String
  stem : String
  ext : String
deriving DecidableEq, Repr

/-- The string form of a path, `parent / (stem + ext)`. -/
def FPath.render (p : FPath) : String :=
  p.parent ++ "/" ++ p.stem ++ p.ext

/-- An in-memory post as produced by `frontmatter.load`: the frontmatter
mapping (association list of string keys to string values) and the body
text (`post.content`). -/
structure Post where
  metadata : List (String × String)
  content : String
deriving DecidableEq, Repr

/-- `m[key]` membership/lookup on the frontmatter mapping, modelling
`'key' in post.metadata` (result `isSome`) and `post.metadata['key']`. -/
def getVal : List (String × String) → String → Option String
  | [], _ => none
  | (k, v) :: rest, key => if k = key then some v else getVal rest key

/-- `post.metadata['key'] = v`: replace the value stored under `key`,
leaving every other entry untouched. -/
def setVal (m : List (String × String)) (key v : String) : List (String × String) :=
  m.map (fun kv => if kv.1 = key then (key, v) else kv)

/-- `os.getenv` followed by the falsy test `if not api_key` in
`get_api_key`: `None` and the empty string both raise, any other value is
returned unchanged.  `env` is the process environment. -/
def get_api_key (env : String → Option String) : Except String String :=
  match env "GEMINI_API_KEY" with
  | none => .error "GEMINI_API_KEY environment variable not set"
  | some v =>
    if v = "" then .error "GEMINI_API_KEY environment variable not set"
    else .ok v

/-- Same contract as `get_api_key`, for the `GEMINI_ENDPOINT` variable. -/
def get_endpoint (env : String → Option String) : Except String String :=
  match env "GEMINI_ENDPOINT" with
  | none => .error "GEMINI_ENDPOINT environment variable not set"
  | some v =>
    if v = "" then .error "GEMINI_ENDPOINT environment variable not set"
    else .ok v

/-- `detect_language`: the bare `try/except` around `langdetect.detect`.
The detector itself is external; its outcome on the given text is the
argument `det` (`.ok code` for a successful top guess, `.error` for any
raised exception). -/
def detect_language (det : Except String String) : String :=
  match det with
  | .ok lang => lang
  | .error _ => "en"

/-- The parsed JSON body of an endpoint response: an optional `choices`
array (each element reduced to its `message.content` string) and an
optional top-level `content` string. -/
structure ApiJson where
  choices : Option (List String)
  content : Option String
deriving DecidableEq, Repr

/-- Rendering of a response body, standing in for the `{result}`
interpolation in the raised `ValueError` message. -/
def ApiJson.render (j : ApiJson) : String :=
  let cs := match j.choices with
    | none => "-"
    | some l => l.foldl (fun a b => a ++ "," ++ b) ""
  let c := match j.content with
    | none => "-"
    | some s => s
  "choices=" ++ cs ++ ";content=" ++ c

/-- What one `requests.post` call produced: either a transport-level
failure (connection error, timeout, ...) or an HTTP response with a
status code and a parsed JSON body. -/
inductive HttpResult where
  | transportError (msg : String)
  | response (status : Nat) (body : ApiJson)
deriving DecidableEq, Repr

/-- One invocation of `translate_text`: the arguments of the outbound
request. -/
structure Call where
  text : String
  source_lang : String
  target_lang : String
  api_key : String
  endpoint : String
deriving DecidableEq, Repr

/-- The body of `translate_text` after `requests.post` returned:
`response.raise_for_status()` (which raises exactly for 4xx/5xx status
codes) followed by the two-shape inspection of the JSON — a non-empty
`choices` array yields the first choice's message content, otherwise a
top-level `content` string, otherwise a `ValueError`; returned text is
stripped. -/
def parse_response (r : HttpResult) : Except String String :=
  match r with
  | .transportError msg => .error msg
  | .response status body =>
    if 400 ≤ status ∧ status < 600 then
      .error ("HTTP error " ++ toString status)
    else
      match body.choices with
      | some (c :: _) => .ok (strip c)
      | _ =>
        match body.content with
        | some c => .ok (strip c)
        | none => .error ("Unexpected API response format: " ++ body.render)

/-- `translate_text text source_lang target_lang api_key endpoint net`:
issues one request (recorded as the returned `Call`) against the network
oracle `net` and processes the outcome with `parse_response`. -/
def translate_text (text source_lang target_lang api_key endpoint : String)
    (net : Call → HttpResult) : Call × Except String String :=
  let c : Call := ⟨text, source_lang, target_lang, api_key, endpoint⟩
  (c, parse_response (net c))

/-- The two `if 'key' in post.metadata: ... translate ... overwrite` blocks
of `process_file`/`translate_file`, shared: when `key` is present its value
is translated and overwritten, otherwise the post is returned unchanged
with no request issued.  Returns the requests issued alongside the
outcome. -/
def translate_field (key source_lang target_lang api_key endpoint : String)
    (net : Call → HttpResult) (post : Post) :
    List Call × Except String Post :=
  match getVal post.metadata key with
  | none => ([], .ok post)
  | some v =>
    let tr := translate_text v source_lang target_lang api_key endpoint net
    ([tr.1], tr.2.map (fun t => { post with metadata := setVal post.metadata key t }))

/-- `process_file` of `translate_content.py`, from the point where the file
has been parsed (`post`, the `frontmatter.load` result): detect the body
language (`det` is the detector's outcome on `post.content`), pick the
source/target pair and filename suffix, translate body, then title and
description when present, and write the mutated post at
`parent / (stem + suffix + ext)`.  The first component lists the requests
issued, in order; `.ok (out, p)` means the serialized post `p` was written
at `out` and `(str(out), True)` returned, `.error e` means the exception
`e` propagated and nothing was written. -/
def process_file (filepath : FPath) (post : Post) (det : Except String String)
    (api_key endpoint : String) (net : Call → HttpResult) :
    List Call × Except String (FPath × Post) :=
  let lang := detect_language det
  let source_lang := if strStartsWith lang "zh" then "zh" else "en"
  let target_lang := if strStartsWith lang "zh" then "en" else "zh"
  let new_lang_suffix := if strStartsWith lang "zh" then "" else ".zh-cn"
  let tr1 := translate_text post.content source_lang target_lang api_key endpoint net
  match tr1.2 with
  | .error e => ([tr1.1], .error e)
  | .ok translated_content =>
    let post1 : Post := { post with content := translated_content }
    let t2 := translate_field "title" source_lang target_lang api_key endpoint net post1
    match t2.2 with
    | .error e => (tr1.1 :: t2.1, .error e)
    | .ok post2 =>
      let t3 := translate_field "description" source_lang target_lang api_key endpoint net post2
      match t3.2 with
      | .error e => (tr1.1 :: t2.1 ++ t3.1, .error e)
      | .ok post3 =>
        let output_path : FPath :=
          ⟨filepath.parent, filepath.stem ++ new_lang_suffix, filepath.ext⟩
        (tr1.1 :: t2.1 ++ t3.1, .ok (output_path, post3))

/-- `translate_file` of `translate_local.py`: like `process_file`, plus the
initial existence check on the input and the interactive overwrite
confirmation when the output path already exists.  `fs` is the file
system's `Path.exists`, `answer` the `input()` reply to the overwrite
prompt (consulted only when the output exists).  `.ok (src, out, w)` means
the pair `(str(src), str(out))` was returned, with `w = some p` when the
serialized post `p` was written at `out` and `w = none` when the write was
declined. -/
def translate_file (filepath : FPath) (fs : FPath → Bool) (post : Post)
    (det : Except String String) (api_key endpoint : String)
    (net : Call → HttpResult) (answer : String) :
    List Call × Except String (FPath × FPath × Option Post) :=
  if fs filepath then
    let lang := detect_language det
    let source_lang := if strStartsWith lang "zh" then "zh" else "en"
    let target_lang := if strStartsWith lang "zh" then "en" else "zh"
    let new_lang_suffix := if strStartsWith lang "zh" then "" else ".zh-cn"
    let tr1 := translate_text post.content source_lang target_lang api_key endpoint net
    match tr1.2 with
    | .error e => ([tr1.1], .error e)
    | .ok translated_content =>
      let post1 : Post := { post with content := translated_content }
      let t2 := translate_field "title" source_lang target_lang api_key endpoint net post1
      match t2.2 with
      | .error e => (tr1.1 :: t2.1, .error e)
      | .ok post2 =>
        let t3 := translate_field "description" source_lang target_lang api_key endpoint net post2
        match t3.2 with
        | .error e => (tr1.1 :: t2.1 ++ t3.1, .error e)
        | .ok post3 =>
          let output_path : FPath :=
            ⟨filepath.parent, filepath.stem ++ new_lang_suffix, filepath.ext⟩
          if fs output_path then
            if strToLower answer = "y" then
              (tr1.1 :: t2.1 ++ t3.1, .ok (filepath, output_path, some post3))
            else
              (tr1.1 :: t2.1 ++ t3.1, .ok (filepath, output_path, none))
          else
            (tr1.1 :: t2.1 ++ t3.1, .ok (filepath, output_path, some post3))
  else
    ([], .error ("File not found: " ++ filepath.render))

/-- One candidate file of a batch run, together with the environment it
meets when processed: its parsed content, the detector's outcome on that
content, and the endpoint's behaviour during its processing. -/
structure BatchFile where
  path : FPath
  post : Post
  det : Except String String
  net : Call → HttpResult

/-- `path_obj.stem.endswith('.en') or path_obj.stem.endswith('.zh-cn')`:
the batch loop's skip guard. -/
def stem_skip (stem : String) : Bool :=
  strEndsWith stem ".en" || strEndsWith stem ".zh-cn"

/-- The observable state accumulated by the batch loop of
`translate_content.main`: the two counters, the writes performed and the
requests issued so far. -/
structure BatchAcc where
  translated : Nat
  failed : Nat
  writes : List (FPath × Post)
  calls : List Call
deriving Repr

/-- One iteration of the batch loop: skip files whose stem already carries
a language suffix, otherwise run `process_file`, counting a success or a
caught failure. -/
def batch_step (api_key endpoint : String) (acc : BatchAcc) (f : BatchFile) : BatchAcc :=
  if stem_skip f.path.stem then acc
  else
    let pr := process_file f.path f.post f.det api_key endpoint f.net
    match pr.2 with
    | .ok w =>
      { acc with translated := acc.translated + 1, writes := acc.writes ++ [w],
                 calls := acc.calls ++ pr.1 }
    | .error _ =>
      { acc with failed := acc.failed + 1, calls := acc.calls ++ pr.1 }

/-- The whole batch loop of `translate_content.main` over the discovered
files, starting from zeroed counters. -/
def batch_run (api_key endpoint : String) (files : List BatchFile) : BatchAcc :=
  files.foldl (batch_step api_key endpoint) ⟨0, 0, [], []⟩

/-- The process exit code after the batch summary:
`sys.exit(1)` when `failed_count > 0`, normal exit (0) otherwise. -/
def batch_exit (acc : BatchAcc) : Nat :=
  if acc.failed > 0 then 1 else 0

/-- `main` of `translate_local.py`, reduced to its exit code: load both
environment variables, run `translate_file`, exit 1 on any exception and
0 otherwise (the post-run review prompt only prints). -/
def local_main (env : String → Option String) (filepath : FPath) (fs : FPath → Bool)
    (post : Post) (det : Except String String) (net : Call → HttpResult)
    (answer : String) : Nat :=
  match get_api_key env with
  | .error _ => 1
  | .ok api_key =>
    match get_endpoint env with
    | .error _ => 1
    | .ok endpoint =>
      match (translate_file filepath fs post det api_key endpoint net answer).2 with
      | .error _ => 1
      | .ok _ => 0

/-! ## Helper lemmas -/

theorem getVal_setVal_ne (m : List (String × String)) (key v k : String) (h : k ≠ key) :
    getVal (setVal m key v) k = getVal m k := by
  induction m with
  | nil => rfl
  | cons kv rest ih =>
    obtain ⟨k0, v0⟩ := kv
    simp only [setVal, List.map_cons]
    by_cases h0 : k0 = key
    · rw [if_pos h0]
      subst h0
      simp only [getVal]
      rw [if_neg (fun hkk => h hkk.symm), if_neg (fun hkk => h hkk.symm)]
      simpa [setVal] using ih
    · rw [if_neg h0]
      simp only [getVal]
      by_cases hk : k0 = k
      · rw [if_pos hk, if_pos hk]
      · rw [if_neg hk, if_neg hk]
        simpa [setVal] using ih

theorem translate_field_of_none (key sl tl ak ep : String) (net : Call → HttpResult)
    (post : Post) (h : getVal post.metadata key = none) :
    translate_field key sl tl ak ep net post = ([], .ok post) := by
  unfold translate_field
  rw [h]

theorem translate_field_of_some (key sl tl ak ep : String) (net : Call → HttpResult)
    (post : Post) (v : String) (h : getVal post.metadata key = some v) :
    translate_field key sl tl ak ep net post =
      ([⟨v, sl, tl, ak, ep⟩],
       (parse_response (net ⟨v, sl, tl, ak, ep⟩)).map
         (fun t => { post with metadata := setVal post.metadata key t })) := by
  unfold translate_field
  rw [h]
  rfl

theorem translate_field_calls (key sl tl ak ep : String) (net : Call → HttpResult)
    (post : Post) :
    ∀ c ∈ (translate_field key sl tl ak ep net post).1,
      c.source_lang = sl ∧ c.target_lang = tl := by
  intro c hc
  cases hg : getVal post.metadata key with
  | none => rw [translate_field_of_none key sl tl ak ep net post hg] at hc; cases hc
  | some v =>
    rw [translate_field_of_some key sl tl ak ep net post v hg] at hc
    rw [List.mem_singleton] at hc
    subst hc
    exact ⟨rfl, rfl⟩

theorem translate_field_ok (key sl tl ak ep : String) (net : Call → HttpResult)
    (post p2 : Post) (h : (translate_field key sl tl ak ep net post).2 = .ok p2) :
    p2.content = post.content ∧
    (∀ k, k ≠ key → getVal p2.metadata k = getVal post.metadata k) ∧
    (∀ c ∈ (translate_field key sl tl ak ep net post).1,
      ∃ t, parse_response (net c) = .ok t) := by
  cases hg : getVal post.metadata key with
  | none =>
    rw [translate_field_of_none key sl tl ak ep net post hg] at h ⊢
    cases h
    exact ⟨rfl, fun k _ => rfl, fun c hc => absurd hc (List.not_mem_nil c)⟩
  | some v =>
    rw [translate_field_of_some key sl tl ak ep net post v hg] at h ⊢
    cases hr : parse_response (net ⟨v, sl, tl, ak, ep⟩) with
    | error e => rw [hr] at h; cases h
    | ok t =>
      rw [hr] at h
      cases h
      refine ⟨rfl, fun k hk => getVal_setVal_ne post.metadata key t k hk, ?_⟩
      intro c hc
      rw [List.mem_singleton] at hc
      subst hc
      exact ⟨t, hr⟩

theorem process_file_calls (filepath : FPath) (post : Post) (det : Except String String)
    (ak ep : String) (net : Call → HttpResult) :
    ∀ c ∈ (process_file filepath post det ak ep net).1,
      c.source_lang = (if strStartsWith (detect_language det) "zh" then "zh" else "en") ∧
      c.target_lang = (if strStartsWith (detect_language det) "zh" then "en" else "zh") := by
  intro c hc
  set sl := (if strStartsWith (detect_language det) "zh" then "zh" else "en") with hsl
  set tl := (if strStartsWith (detect_language det) "zh" then "en" else "zh") with htl
  simp only [process_file, translate_text, ← hsl, ← htl] at hc
  cases h1 : parse_response (net ⟨post.content, sl, tl, ak, ep⟩) with
  | error e =>
    rw [h1] at hc
    simp only [List.mem_singleton] at hc
    subst hc
    exact ⟨rfl, rfl⟩
  | ok tc =>
    rw [h1] at hc
    simp only at hc
    cases h2 : (translate_field "title" sl tl ak ep net { post with content := tc }).2 with
    | error e =>
      rw [h2] at hc
      simp only [List.mem_cons] at hc
      rcases hc with hc | hc
      · subst hc; exact ⟨rfl, rfl⟩
      · exact translate_field_calls _ sl tl ak ep net _ c hc
    | ok post2 =>
      rw [h2] at hc
      simp only at hc
      cases h3 : (translate_field "description" sl tl ak ep net post2).2 with
      | error e =>
        rw [h3] at hc
        cases hc with
        | head => exact ⟨rfl, rfl⟩
        | tail b hmem =>
          rcases List.mem_append.mp hmem with hm | hm
          · exact translate_field_calls _ sl tl ak ep net _ c hm
          · exact translate_field_calls _ sl tl ak ep net _ c hm
      | ok post3 =>
        rw [h3] at hc
        cases hc with
        | head => exact ⟨rfl, rfl⟩
        | tail b hmem =>
          rcases List.mem_append.mp hmem with hm | hm
          · exact translate_field_calls _ sl tl ak ep net _ c hm
          · exact translate_field_calls _ sl tl ak ep net _ c hm

theorem process_file_ok_path_meta (filepath : FPath) (post : Post)
    (det : Except String String) (ak ep : String) (net : Call → HttpResult)
    (out : FPath) (p : Post)
    (h : (process_file filepath post det ak ep net).2 = .ok (out, p)) :
    out = ⟨filepath.parent,
           filepath.stem ++ (if strStartsWith (detect_language det) "zh" then "" else ".zh-cn"),
           filepath.ext⟩ ∧
    (∀ k, k ≠ "title" → k ≠ "description" →
      getVal p.metadata k = getVal post.metadata k) := by
  set sl := (if strStartsWith (detect_language det) "zh" then "zh" else "en") with hsl
  set tl := (if strStartsWith (detect_language det) "zh" then "en" else "zh") with htl
  set sfx := (if strStartsWith (detect_language det) "zh" then "" else ".zh-cn") with hsfx
  simp only [process_file, translate_text, ← hsl, ← htl, ← hsfx] at h
  cases h1 : parse_response (net ⟨post.content, sl, tl, ak, ep⟩) with
  | error e => rw [h1] at h; simp at h
  | ok tc =>
    rw [h1] at h
    simp only at h
    cases h2 : (translate_field "title" sl tl ak ep net { post with content := tc }).2 with
    | error e => rw [h2] at h; simp at h
    | ok post2 =>
      rw [h2] at h
      simp only at h
      cases h3 : (translate_field "description" sl tl ak ep net post2).2 with
      | error e => rw [h3] at h; simp at h
      | ok post3 =>
        rw [h3] at h
        simp only [Except.ok.injEq, Prod.mk.injEq] at h
        obtain ⟨hout, hp⟩ := h
        obtain ⟨hc2, hm2, hcall2⟩ := translate_field_ok "title" sl tl ak ep net _ _ h2
        obtain ⟨hc3, hm3, hcall3⟩ := translate_field_ok "description" sl tl ak ep net _ _ h3
        refine ⟨hout.symm, ?_⟩
        intro k hkt hkd
        rw [← hp, hm3 k hkd, hm2 k hkt]

theorem process_file_ok_calls (filepath : FPath) (post : Post)
    (det : Except String String) (ak ep : String) (net : Call → HttpResult)
    (out : FPath) (p : Post)
    (h : (process_file filepath post det ak ep net).2 = .ok (out, p)) :
    ∀ c ∈ (process_file filepath post det ak ep net).1,
      ∃ t, parse_response (net c) = .ok t := by
  intro c hcm
  set sl := (if strStartsWith (detect_language det) "zh" then "zh" else "en") with hsl
  set tl := (if strStartsWith (detect_language det) "zh" then "en" else "zh") with htl
  set sfx := (if strStartsWith (detect_language det) "zh" then "" else ".zh-cn") with hsfx
  simp only [process_file, translate_text, ← hsl, ← htl, ← hsfx] at h hcm
  cases h1 : parse_response (net ⟨post.content, sl, tl, ak, ep⟩) with
  | error e => rw [h1] at h; simp at h
  | ok tc =>
    rw [h1] at h hcm
    simp only at h hcm
    cases h2 : (translate_field "title" sl tl ak ep net { post with content := tc }).2 with
    | error e => rw [h2] at h; simp at h
    | ok post2 =>
      rw [h2] at h hcm
      simp only at h hcm
      cases h3 : (translate_field "description" sl tl ak ep net post2).2 with
      | error e => rw [h3] at h; simp at h
      | ok post3 =>
        rw [h3] at hcm
        obtain ⟨hc2, hm2, hcall2⟩ := translate_field_ok "title" sl tl ak ep net _ _ h2
        obtain ⟨hc3, hm3, hcall3⟩ := translate_field_ok "description" sl tl ak ep net _ _ h3
        cases hcm with
        | head => exact ⟨tc, h1⟩
        | tail b hmem =>
          rcases List.mem_append.mp hmem with hm | hm
          · exact hcall2 c hm
          · exact hcall3 c hm

theorem process_file_error_of_call_error (filepath : FPath) (post : Post)
    (det : Except String String) (ak ep : String) (net : Call → HttpResult)
    (c : Call) (e : String)
    (hc : c ∈ (process_file filepath post det ak ep net).1)
    (he : parse_response (net c) = .error e) :
    ∃ e2, (process_file filepath post det ak ep net).2 = .error e2 := by
  cases hres : (process_file filepath post det ak ep net).2 with
  | error e2 => exact ⟨e2, rfl⟩
  | ok op =>
    obtain ⟨out, p⟩ := op
    obtain ⟨t, ht⟩ := process_file_ok_calls filepath post det ak ep net out p hres c hc
    rw [he] at ht
    cases ht

theorem translate_file_run (filepath : FPath) (fs : FPath → Bool) (post : Post)
    (det : Except String String) (ak ep : String) (net : Call → HttpResult)
    (answer : String) (h : fs filepath = true) :
    translate_file filepath fs post det ak ep net answer =
      ((process_file filepath post det ak ep net).1,
       match (process_file filepath post det ak ep net).2 with
       | .error e => .error e
       | .ok op =>
         .ok (filepath, op.1,
           if fs op.1 then
             (if strToLower answer = "y" then some op.2 else none)
           else some op.2)) := by
  set sl := (if strStartsWith (detect_language det) "zh" then "zh" else "en") with hsl
  set tl := (if strStartsWith (detect_language det) "zh" then "en" else "zh") with htl
  set sfx := (if strStartsWith (detect_language det) "zh" then "" else ".zh-cn") with hsfx
  simp only [translate_file, process_file, translate_text, h, if_true, ← hsl, ← htl, ← hsfx]
  cases h1 : parse_response (net ⟨post.content, sl, tl, ak, ep⟩) with
  | error e => rfl
  | ok tc =>
    simp only
    cases h2 : (translate_field "title" sl tl ak ep net { post with content := tc }).2 with
    | error e => rfl
    | ok post2 =>
      simp only
      cases h3 : (translate_field "description" sl tl ak ep net post2).2 with
      | error e => rfl
      | ok post3 =>
        by_cases hfs : fs ⟨filepath.parent, filepath.stem ++ sfx, filepath.ext⟩ = true
        · by_cases ha : strToLower answer = "y" <;> simp [hfs, ha]
        · simp [hfs]

/-- Whether `process_file` succeeds on a batch file (the branch of the
`try/except` taken by the loop body). -/
def file_succeeds (ak ep : String) (f : BatchFile) : Bool :=
  match (process_file f.path f.post f.det ak ep f.net).2 with
  | .ok _ => true
  | .error _ => false

theorem batch_step_skip (ak ep : String) (acc : BatchAcc) (f : BatchFile)
    (h : stem_skip f.path.stem = true) :
    batch_step ak ep acc f = acc := by
  simp [batch_step, h]

theorem batch_foldl_filter (ak ep : String) (files : List BatchFile) (acc : BatchAcc) :
    files.foldl (batch_step ak ep) acc =
      (files.filter (fun f => ! stem_skip f.path.stem)).foldl (batch_step ak ep) acc := by
  induction files generalizing acc with
  | nil => rfl
  | cons f rest ih =>
    cases hss : stem_skip f.path.stem with
    | true =>
      rw [List.foldl_cons, batch_step_skip ak ep acc f hss]
      rw [List.filter_cons]
      simp only [hss, Bool.not_true, Bool.false_eq_true, if_false]
      exact ih acc
    | false =>
      rw [List.foldl_cons, List.filter_cons]
      simp only [hss, Bool.not_false, if_true, List.foldl_cons]
      exact ih (batch_step ak ep acc f)

theorem batch_foldl_counts (ak ep : String) (files : List BatchFile) (acc : BatchAcc) :
    (files.foldl (batch_step ak ep) acc).translated =
      acc.translated +
        (files.filter (fun f => ! stem_skip f.path.stem && file_succeeds ak ep f)).length ∧
    (files.foldl (batch_step ak ep) acc).failed =
      acc.failed +
        (files.filter (fun f => ! stem_skip f.path.stem && ! file_succeeds ak ep f)).length := by
  induction files generalizing acc with
  | nil => simp
  | cons f rest ih =>
    rw [List.foldl_cons]
    cases hss : stem_skip f.path.stem with
    | true =>
      have e1 : List.filter (fun f => ! stem_skip f.path.stem && file_succeeds ak ep f)
          (f :: rest) =
          List.filter (fun f => ! stem_skip f.path.stem && file_succeeds ak ep f) rest := by
        rw [List.filter_cons]
        simp [hss]
      have e2 : List.filter (fun f => ! stem_skip f.path.stem && ! file_succeeds ak ep f)
          (f :: rest) =
          List.filter (fun f => ! stem_skip f.path.stem && ! file_succeeds ak ep f) rest := by
        rw [List.filter_cons]
        simp [hss]
      rw [batch_step_skip ak ep acc f hss, e1, e2]
      exact ih acc
    | false =>
      cases hok : file_succeeds ak ep f with
      | true =>
        have hstep : (batch_step ak ep acc f).translated = acc.translated + 1 ∧
            (batch_step ak ep acc f).failed = acc.failed := by
          unfold file_succeeds at hok
          unfold batch_step
          simp only [hss, Bool.false_eq_true, if_false]
          cases hpr : (process_file f.path f.post f.det ak ep f.net).2 with
          | ok w => exact ⟨rfl, rfl⟩
          | error e => rw [hpr] at hok; simp at hok
        have e1 : List.filter (fun f => ! stem_skip f.path.stem && file_succeeds ak ep f)
            (f :: rest) =
            f :: List.filter (fun f => ! stem_skip f.path.stem && file_succeeds ak ep f) rest := by
          rw [List.filter_cons]
          simp [hss, hok]
        have e2 : List.filter (fun f => ! stem_skip f.path.stem && ! file_succeeds ak ep f)
            (f :: rest) =
            List.filter (fun f => ! stem_skip f.path.stem && ! file_succeeds ak ep f) rest := by
          rw [List.filter_cons]
          simp [hss, hok]
        obtain ⟨ht, hf⟩ := ih (batch_step ak ep acc f)
        rw [e1, e2, List.length_cons, ht, hf, hstep.1, hstep.2]
        constructor <;> omega
      | false =>
        have hstep : (batch_step ak ep acc f).translated = acc.translated ∧
            (batch_step ak ep acc f).failed = acc.failed + 1 := by
          unfold file_succeeds at hok
          unfold batch_step
          simp only [hss, Bool.false_eq_true, if_false]
          cases hpr : (process_file f.path f.post f.det ak ep f.net).2 with
          | ok w => rw [hpr] at hok; simp at hok
          | error e => exact ⟨rfl, rfl⟩
        have e1 : List.filter (fun f => ! stem_skip f.path.stem && file_succeeds ak ep f)
            (f :: rest) =
            List.filter (fun f => ! stem_skip f.path.stem && file_succeeds ak ep f) rest := by
          rw [List.filter_cons]
          simp [hss, hok]
        have e2 : List.filter (fun f => ! stem_skip f.path.stem && ! file_succeeds ak ep f)
            (f :: rest) =
            f :: List.filter (fun f => ! stem_skip f.path.stem && ! file_succeeds ak ep f) rest := by
          rw [List.filter_cons]
          simp [hss, hok]
        obtain ⟨ht, hf⟩ := ih (batch_step ak ep acc f)
        rw [e1, e2, List.length_cons, ht, hf, hstep.1, hstep.2]
        constructor <;> omega

theorem batch_run_counts (ak ep : String) (files : List BatchFile) :
    (batch_run ak ep files).translated =
      (files.filter (fun f => ! stem_skip f.path.stem && file_succeeds ak ep f)).length ∧
    (batch_run ak ep files).failed =
      (files.filter (fun f => ! stem_skip f.path.stem && ! file_succeeds ak ep f)).length := by
  have := batch_foldl_counts ak ep files ⟨0, 0, [], []⟩
  simpa [batch_run] using this

theorem str_append_empty (s : String) : s ++ "" = s := by
  cases s with
  | mk data =>
    show String.mk (data ++ []) = String.mk data
    rw [List.append_nil]

theorem translate_file_notfound (filepath : FPath) (fs : FPath → Bool) (post : Post)
    (det : Except String String) (ak ep : String) (net : Call → HttpResult)
    (answer : String) (h : fs filepath = false) :
    translate_file filepath fs post det ak ep net answer =
      ([], .error ("File not found: " ++ filepath.render)) := by
  simp [translate_file, h]

theorem translate_file_ok (filepath : FPath) (fs : FPath → Bool) (post : Post)
    (det : Except String String) (ak ep : String) (net : Call → HttpResult)
    (answer : String) (src out : FPath) (w : Option Post)
    (h : (translate_file filepath fs post det ak ep net answer).2 = .ok (src, out, w)) :
    fs filepath = true ∧ src = filepath ∧
    ∃ p, (process_file filepath post det ak ep net).2 = .ok (out, p) ∧
      w = (if fs out then (if strToLower answer = "y" then some p else none)
           else some p) := by
  by_cases hfs : fs filepath = true
  · rw [translate_file_run filepath fs post det ak ep net answer hfs] at h
    cases hpr : (process_file filepath post det ak ep net).2 with
    | error e => rw [hpr] at h; simp at h
    | ok op =>
      obtain ⟨o1, p⟩ := op
      rw [hpr] at h
      simp only [Except.ok.injEq, Prod.mk.injEq] at h
      obtain ⟨h1, h2, h3⟩ := h
      exact ⟨hfs, h1.symm, p, by rw [← h2], by rw [← h3, ← h2]⟩
  · rw [translate_file_notfound filepath fs post det ak ep net answer
      (Bool.not_eq_true (fs filepath) ▸ hfs)] at h
    cases h

theorem translate_file_calls (filepath : FPath) (fs : FPath → Bool) (post : Post)
    (det : Except String String) (ak ep : String) (net : Call → HttpResult)
    (answer : String) :
    ∀ c ∈ (translate_file filepath fs post det ak ep net answer).1,
      c.source_lang = (if strStartsWith (detect_language det) "zh" then "zh" else "en") ∧
      c.target_lang = (if strStartsWith (detect_language det) "zh" then "en" else "zh") := by
  intro c hc
  by_cases hfs : fs filepath = true
  · rw [translate_file_run filepath fs post det ak ep net answer hfs] at hc
    exact process_file_calls filepath post det ak ep net c hc
  · rw [translate_file_notfound filepath fs post det ak ep net answer
      (Bool.not_eq_true (fs filepath) ▸ hfs)] at hc
    cases hc

theorem translate_file_error_of_call_error (filepath : FPath) (fs : FPath → Bool)
    (post : Post) (det : Except String String) (ak ep : String)
    (net : Call → HttpResult) (answer : String) (c : Call) (e : String)
    (hc : c ∈ (translate_file filepath fs post det ak ep net answer).1)
    (he : parse_response (net c) = .error e) :
    ∃ e2, (translate_file filepath fs post det ak ep net answer).2 = .error e2 := by
  by_cases hfs : fs filepath = true
  · rw [translate_file_run filepath fs post det ak ep net answer hfs] at hc ⊢
    obtain ⟨e2, he2⟩ := process_file_error_of_call_error filepath post det ak ep net c e hc he
    rw [he2]
    exact ⟨e2, rfl⟩
  · rw [translate_file_notfound filepath fs post det ak ep net answer
      (Bool.not_eq_true (fs filepath) ▸ hfs)]
    exact ⟨"File not found: " ++ filepath.render, rfl⟩

/-! ## Concrete fixtures -/

/-- A network oracle whose every response is a 200 carrying one choice. -/
def goodNet (reply : String) : Call → HttpResult :=
  fun _ => .response 200 ⟨some [reply], none⟩

/-- A network oracle that always fails at the transport level. -/
def downNet : Call → HttpResult :=
  fun _ => .transportError "network error"

def samplePath : FPath := ⟨"content/en/posts", "hello", ".md"⟩

def samplePost : Post := ⟨[("title", "Hello"), ("draft", "false")], "World"⟩

def sampleEnv : String → Option String :=
  fun k => if k = "GEMINI_API_KEY" then some "k"
    else if k = "GEMINI_ENDPOINT" then some "ep" else none

/-- Batch scenario: `a.md`, whose translation meets a network error. -/
def fileA : BatchFile := ⟨⟨"content/en/posts", "a", ".md"⟩, ⟨[], "Hi"⟩, .ok "en", downNet⟩

/-- Batch scenario: `a.zh-cn.md`, an already-translated output file. -/
def fileAzh : BatchFile :=
  ⟨⟨"content/en/posts", "a.zh-cn", ".md"⟩, ⟨[("title", "t")], "Hi again"⟩, .ok "en", downNet⟩

/-- Batch scenario: `b.md`, which translates fine. -/
def fileB : BatchFile := ⟨⟨"content/en/posts", "b", ".md"⟩, ⟨[], "Yo"⟩, .ok "en", goodNet "hao"⟩

/-! ## Claims -/

/-- C7: `detect_language` never propagates a detector failure: a successful
detection is returned unchanged, and any detector exception is replaced by
the fallback code `en`. -/
theorem claim7_detect_language_never_fails :
    (∀ lang, detect_language (Except.ok lang) = lang) ∧
    (∀ e, detect_language (Except.error e) = "en") :=
  ⟨fun _ => rfl, fun _ => rfl⟩

/-- C10: an environment variable set to the empty string is treated exactly
like an unset one: `get_api_key` and `get_endpoint` raise the
missing-variable error when the value is absent or empty, and return the
value unchanged otherwise. -/
theorem claim10_empty_env_like_unset (env : String → Option String) :
    ((env "GEMINI_API_KEY" = none ∨ env "GEMINI_API_KEY" = some "") →
      get_api_key env = .error "GEMINI_API_KEY environment variable not set") ∧
    (∀ v, env "GEMINI_API_KEY" = some v → v ≠ "" → get_api_key env = .ok v) ∧
    ((env "GEMINI_ENDPOINT" = none ∨ env "GEMINI_ENDPOINT" = some "") →
      get_endpoint env = .error "GEMINI_ENDPOINT environment variable not set") ∧
    (∀ v, env "GEMINI_ENDPOINT" = some v → v ≠ "" → get_endpoint env = .ok v) := by
  refine ⟨?_, ?_, ?_, ?_⟩
  · intro h
    unfold get_api_key
    rcases h with h | h <;> simp [h]
  · intro v hv hne
    unfold get_api_key
    rw [hv]
    simp [hne]
  · intro h
    unfold get_endpoint
    rcases h with h | h <;> simp [h]
  · intro v hv hne
    unfold get_endpoint
    rw [hv]
    simp [hne]

/-- C10 witness: the empty string is rejected like an unset variable. -/
theorem claim10_witness :
    get_api_key (fun _ => some "") =
      .error "GEMINI_API_KEY environment variable not set" :=
  (claim10_empty_env_like_unset (fun _ => some "")).1 (Or.inr rfl)

/-- C4: on a successful (2xx) endpoint response, `translate_text` returns
the stripped first choice's message content when a non-empty `choices`
array is present, otherwise the stripped top-level `content` string when
present; when neither shape matches it fails with the unexpected-format
error carrying the response body, never returning text. -/
theorem claim4_response_parsing (text sl tl ak ep : String) (net : Call → HttpResult)
    (status : Nat) (body : ApiJson)
    (hnet : net ⟨text, sl, tl, ak, ep⟩ = .response status body)
    (h2a : 200 ≤ status) (h2b : status < 300) :
    (∀ c rest, body.choices = some (c :: rest) →
      (translate_text text sl tl ak ep net).2 = .ok (strip c)) ∧
    ((body.choices = none ∨ body.choices = some []) →
      (∀ s, body.content = some s →
        (translate_text text sl tl ak ep net).2 = .ok (strip s)) ∧
      (body.content = none →
        (translate_text text sl tl ak ep net).2 =
          .error ("Unexpected API response format: " ++ body.render) ∧
        ∀ t, (translate_text text sl tl ak ep net).2 ≠ .ok t)) := by
  have hrange : ¬ (400 ≤ status ∧ status < 600) := by omega
  have hbase : (translate_text text sl tl ak ep net).2 =
      parse_response (.response status body) := by
    simp [translate_text, hnet]
  refine ⟨?_, ?_⟩
  · intro c rest hch
    rw [hbase]
    simp [parse_response, hrange, hch]
  · intro hch
    constructor
    · intro s hs
      rw [hbase]
      rcases hch with hch | hch <;> simp [parse_response, hrange, hch, hs]
    · intro hnone
      have : (translate_text text sl tl ak ep net).2 =
          .error ("Unexpected API response format: " ++ body.render) := by
        rw [hbase]
        rcases hch with hch | hch <;> simp [parse_response, hrange, hch, hnone]
      refine ⟨this, ?_⟩
      intro t ht
      rw [this] at ht
      cases ht

/-- C4 witness: a 200 response with one choice yields its stripped
content. -/
theorem claim4_witness :
    (translate_text "World" "en" "zh" "k" "ep" (goodNet " x ")).2 = .ok "x" :=
  (claim4_response_parsing "World" "en" "zh" "k" "ep" (goodNet " x ") 200
    ⟨some [" x "], none⟩ rfl (by decide) (by decide)).1 " x " [] rfl

/-- C5: in batch mode a file whose stem ends in `.en` or `.zh-cn` is
skipped before any work: the loop step leaves the accumulator (counters,
writes and issued requests) untouched, and a whole run equals the run over
the non-skipped files only. -/
theorem claim5_batch_skip (ak ep : String) :
    (∀ acc f, stem_skip f.path.stem = true → batch_step ak ep acc f = acc) ∧
    (∀ files : List BatchFile, batch_run ak ep files =
      batch_run ak ep (files.filter (fun f => ! stem_skip f.path.stem))) := by
  refine ⟨batch_step_skip ak ep, ?_⟩
  intro files
  unfold batch_run
  exact batch_foldl_filter ak ep files ⟨0, 0, [], []⟩

/-- C5 witness: the already-translated `a.zh-cn.md` leaves the batch state
unchanged. -/
theorem claim5_witness :
    batch_step "k" "ep" ⟨0, 0, [], []⟩ fileAzh = ⟨0, 0, [], []⟩ :=
  (claim5_batch_skip "k" "ep").1 ⟨0, 0, [], []⟩ fileAzh (by decide)

/-- C1: for every input file, when the detected language code starts with
`zh` the chosen direction is zh→en with empty output suffix, otherwise
en→zh with suffix `.zh-cn`; in both scripts the output path is the input's
parent directory joined with (stem + suffix + original extension). -/
theorem claim1_direction_and_output
    (filepath : FPath) (post : Post) (det : Except String String)
    (ak ep : String) (net : Call → HttpResult) (fs : FPath → Bool) (answer : String) :
    (∀ c ∈ (process_file filepath post det ak ep net).1,
      c.source_lang = (if strStartsWith (detect_language det) "zh" then "zh" else "en") ∧
      c.target_lang = (if strStartsWith (detect_language det) "zh" then "en" else "zh")) ∧
    (∀ out p, (process_file filepath post det ak ep net).2 = .ok (out, p) →
      out = ⟨filepath.parent,
             filepath.stem ++
               (if strStartsWith (detect_language det) "zh" then "" else ".zh-cn"),
             filepath.ext⟩) ∧
    (∀ c ∈ (translate_file filepath fs post det ak ep net answer).1,
      c.source_lang = (if strStartsWith (detect_language det) "zh" then "zh" else "en") ∧
      c.target_lang = (if strStartsWith (detect_language det) "zh" then "en" else "zh")) ∧
    (∀ src out w,
      (translate_file filepath fs post det ak ep net answer).2 = .ok (src, out, w) →
      out = ⟨filepath.parent,
             filepath.stem ++
               (if strStartsWith (detect_language det) "zh" then "" else ".zh-cn"),
             filepath.ext⟩) := by
  refine ⟨process_file_calls filepath post det ak ep net, ?_,
    translate_file_calls filepath fs post det ak ep net answer, ?_⟩
  · intro out p h
    exact (process_file_ok_path_meta filepath post det ak ep net out p h).1
  · intro src out w h
    obtain ⟨-, -, p, hpr, -⟩ :=
      translate_file_ok filepath fs post det ak ep net answer src out w h
    exact (process_file_ok_path_meta filepath post det ak ep net out p hpr).1

/-- C1 witness: an English post gets the `.zh-cn` suffix next to its
source. -/
theorem claim1_witness :
    (process_file samplePath samplePost (Except.ok "en") "k" "ep" (goodNet "nihao")).2 =
      .ok (⟨"content/en/posts", "hello.zh-cn", ".md"⟩,
           ⟨[("title", "nihao"), ("draft", "false")], "nihao"⟩) ∧
    (⟨"content/en/posts", "hello.zh-cn", ".md"⟩ : FPath) =
      ⟨samplePath.parent,
       samplePath.stem ++
         (if strStartsWith (detect_language (Except.ok "en")) "zh" then "" else ".zh-cn"),
       samplePath.ext⟩ :=
  ⟨rfl,
   (claim1_direction_and_output samplePath samplePost (Except.ok "en") "k" "ep"
      (goodNet "nihao") (fun _ => true) "y").2.1 _ _ rfl⟩

/-- C2: processing a file leaves every frontmatter key other than `title`
and `description` in the output with its value unchanged, in both
scripts. -/
theorem claim2_frontmatter_preserved
    (filepath : FPath) (post : Post) (det : Except String String)
    (ak ep : String) (net : Call → HttpResult) (fs : FPath → Bool) (answer : String)
    (k : String) (hkt : k ≠ "title") (hkd : k ≠ "description") :
    (∀ out p, (process_file filepath post det ak ep net).2 = .ok (out, p) →
      getVal p.metadata k = getVal post.metadata k) ∧
    (∀ src out p,
      (translate_file filepath fs post det ak ep net answer).2 = .ok (src, out, some p) →
      getVal p.metadata k = getVal post.metadata k) := by
  constructor
  · intro out p h
    exact (process_file_ok_path_meta filepath post det ak ep net out p h).2 k hkt hkd
  · intro src out p h
    obtain ⟨-, -, p0, hpr, hw⟩ :=
      translate_file_ok filepath fs post det ak ep net answer src out (some p) h
    have hp : p = p0 := by
      by_cases hfs : fs out = true
      · rw [hfs, if_pos rfl] at hw
        by_cases ha : strToLower answer = "y"
        · rw [if_pos ha] at hw
          exact (Option.some_inj.mp hw.symm).symm
        · rw [if_neg ha] at hw
          cases hw
      · rw [if_neg hfs] at hw
        exact (Option.some_inj.mp hw.symm).symm
    rw [hp]
    exact (process_file_ok_path_meta filepath post det ak ep net out p0 hpr).2 k hkt hkd

/-- C2 witness: the `draft` key survives a successful run untouched. -/
theorem claim2_witness :
    getVal (⟨[("title", "nihao"), ("draft", "false")], "nihao"⟩ : Post).metadata "draft" =
      getVal samplePost.metadata "draft" :=
  (claim2_frontmatter_preserved samplePath samplePost (Except.ok "en") "k" "ep"
    (goodNet "nihao") (fun _ => true) "y" "draft" (by decide) (by decide)).1 _ _ rfl

/-- C3 counterexample: the claim says a non-2xx HTTP status makes the run
raise and write nothing, but `raise_for_status` only raises for 4xx/5xx: a
304 response whose body has a `content` field is accepted, every call of
the run received that non-2xx response, and the output is written. -/
theorem claim3_counterexample :
    ¬ (200 ≤ 304 ∧ 304 < 300) ∧
    (process_file ⟨"content/en/posts", "hello", ".md"⟩ ⟨[], "World"⟩ (Except.ok "en")
        "k" "ep" (fun _ => .response 304 ⟨none, some "hi"⟩)).1 =
      [⟨"World", "en", "zh", "k", "ep"⟩] ∧
    (process_file ⟨"content/en/posts", "hello", ".md"⟩ ⟨[], "World"⟩ (Except.ok "en")
        "k" "ep" (fun _ => .response 304 ⟨none, some "hi"⟩)).2 =
      .ok (⟨"content/en/posts", "hello.zh-cn", ".md"⟩, ⟨[], "hi"⟩) :=
  ⟨by decide, rfl, rfl⟩

/-- C3 (amended): if any translation call made while processing a file
fails — transport failure, HTTP status in the 4xx/5xx range, or
unrecognized response shape, i.e. `parse_response` yields an error — then
the run returns an error and no output is written; conversely an output is
written only when every issued call succeeded.  Holds for both scripts. -/
theorem claim3_no_write_on_failure
    (filepath : FPath) (post : Post) (det : Except String String)
    (ak ep : String) (net : Call → HttpResult) (fs : FPath → Bool) (answer : String) :
    (∀ c ∈ (process_file filepath post det ak ep net).1, ∀ e,
      parse_response (net c) = .error e →
      ∃ e2, (process_file filepath post det ak ep net).2 = .error e2) ∧
    (∀ out p, (process_file filepath post det ak ep net).2 = .ok (out, p) →
      ∀ c ∈ (process_file filepath post det ak ep net).1,
        ∃ t, parse_response (net c) = .ok t) ∧
    (∀ c ∈ (translate_file filepath fs post det ak ep net answer).1, ∀ e,
      parse_response (net c) = .error e →
      ∃ e2, (translate_file filepath fs post det ak ep net answer).2 = .error e2) := by
  refine ⟨?_, ?_, ?_⟩
  · intro c hc e he
    exact process_file_error_of_call_error filepath post det ak ep net c e hc he
  · intro out p h
    exact process_file_ok_calls filepath post det ak ep net out p h
  · intro c hc e he
    exact translate_file_error_of_call_error filepath fs post det ak ep net answer c e hc he

/-- C3 witness: a transport failure on the body call aborts the run with
an error. -/
theorem claim3_witness :
    ∃ e2, (process_file samplePath samplePost (Except.ok "en") "k" "ep" downNet).2 =
      .error e2 :=
  (claim3_no_write_on_failure samplePath samplePost (Except.ok "en") "k" "ep" downNet
    (fun _ => true) "y").1 ⟨"World", "en", "zh", "k", "ep"⟩ (by decide)
    "network error" rfl

/-- C9: when the detected language code starts with `zh`, the empty suffix
makes the computed output path identical to the input path, so both
scripts overwrite the source file with the translation. -/
theorem claim9_zh_overwrites_source
    (filepath : FPath) (post : Post) (det : Except String String)
    (ak ep : String) (net : Call → HttpResult) (fs : FPath → Bool) (answer : String)
    (hzh : strStartsWith (detect_language det) "zh" = true) :
    (∀ out p, (process_file filepath post det ak ep net).2 = .ok (out, p) →
      out = filepath ∧ out.render = filepath.render) ∧
    (∀ src out w,
      (translate_file filepath fs post det ak ep net answer).2 = .ok (src, out, w) →
      out = filepath) := by
  have hexp : (⟨filepath.parent,
      filepath.stem ++ (if strStartsWith (detect_language det) "zh" then "" else ".zh-cn"),
      filepath.ext⟩ : FPath) = filepath := by
    rw [if_pos hzh, str_append_empty]
  constructor
  · intro out p h
    have := (process_file_ok_path_meta filepath post det ak ep net out p h).1
    rw [this, hexp]
    exact ⟨rfl, rfl⟩
  · intro src out w h
    obtain ⟨-, -, p, hpr, -⟩ :=
      translate_file_ok filepath fs post det ak ep net answer src out w h
    have := (process_file_ok_path_meta filepath post det ak ep net out p hpr).1
    rw [this, hexp]

/-- C9 witness: a Chinese post's output path equals its input path. -/
theorem claim9_witness :
    strStartsWith (detect_language (Except.ok "zh-cn")) "zh" = true ∧
    (⟨"content/en/posts", "hello", ".md"⟩ : FPath) = samplePath :=
  ⟨by decide,
   ((claim9_zh_overwrites_source samplePath samplePost (Except.ok "zh-cn") "k" "ep"
      (goodNet "Hello") (fun _ => false) "y" (by decide)).1 _ _ rfl).1⟩

/-- C6: in a batch run each failure is caught and counted without aborting
the rest, each success increments the translated counter, the exit status
is nonzero exactly when some non-skipped file failed, and on the scenario
`a.md` (network error), `a.zh-cn.md` (skipped), `b.md` (success) the
summary is 1 success, 1 failure, exit code 1. -/
theorem claim6_batch_counting (ak ep : String) (files : List BatchFile) :
    (batch_run ak ep files).translated =
      (files.filter (fun f => ! stem_skip f.path.stem && file_succeeds ak ep f)).length ∧
    (batch_run ak ep files).failed =
      (files.filter (fun f => ! stem_skip f.path.stem && ! file_succeeds ak ep f)).length ∧
    (batch_exit (batch_run ak ep files) ≠ 0 ↔
      ∃ f ∈ files, stem_skip f.path.stem = false ∧ file_succeeds ak ep f = false) ∧
    (batch_run "k" "e" [fileA, fileAzh, fileB]).translated = 1 ∧
    (batch_run "k" "e" [fileA, fileAzh, fileB]).failed = 1 ∧
    batch_exit (batch_run "k" "e" [fileA, fileAzh, fileB]) = 1 := by
  obtain ⟨ht, hf⟩ := batch_run_counts ak ep files
  have hexit : batch_exit (batch_run ak ep files) ≠ 0 ↔
      0 < (batch_run ak ep files).failed := by
    unfold batch_exit
    by_cases hp : (batch_run ak ep files).failed > 0
    · simp [hp]
    · simp [hp]
  refine ⟨ht, hf, ?_, rfl, rfl, rfl⟩
  rw [hexit, hf]
  constructor
  · intro hl
    have hne : files.filter (fun f => ! stem_skip f.path.stem && ! file_succeeds ak ep f)
        ≠ [] := by
      intro hnil
      rw [hnil] at hl
      simp at hl
    obtain ⟨f, hfmem⟩ := List.exists_mem_of_ne_nil _ hne
    obtain ⟨hmem, hpred⟩ := List.mem_filter.mp hfmem
    rw [Bool.and_eq_true, Bool.not_eq_true', Bool.not_eq_true'] at hpred
    exact ⟨f, hmem, hpred.1, hpred.2⟩
  · rintro ⟨f, hmem, h1, h2⟩
    have hpred : (! stem_skip f.path.stem && ! file_succeeds ak ep f) = true := by
      rw [Bool.and_eq_true, Bool.not_eq_true', Bool.not_eq_true']
      exact ⟨h1, h2⟩
    have hfil : f ∈ files.filter
        (fun f => ! stem_skip f.path.stem && ! file_succeeds ak ep f) :=
      List.mem_filter.mpr ⟨hmem, hpred⟩
    exact List.length_pos.mpr (List.ne_nil_of_mem hfil)

/-- C6 witness: the scenario run exits nonzero because `a.md` failed. -/
theorem claim6_witness :
    batch_exit (batch_run "k" "e" [fileA, fileAzh, fileB]) ≠ 0 :=
  (claim6_batch_counting "k" "e" [fileA, fileAzh, fileB]).2.2.1.mpr
    ⟨fileA, List.Mem.head _, by decide, by decide⟩

/-- C8: when the output path already exists and the overwrite confirmation
is declined (any answer other than `y`), `translate_file` performs no
write yet still returns the (source, output) pair, and the process exits
with code 0. -/
theorem claim8_decline_no_write
    (filepath : FPath) (fs : FPath → Bool) (post : Post) (det : Except String String)
    (ak ep : String) (net : Call → HttpResult) (answer : String)
    (src out : FPath) (w : Option Post)
    (hans : strToLower answer ≠ "y")
    (h : (translate_file filepath fs post det ak ep net answer).2 = .ok (src, out, w))
    (hfs : fs out = true) :
    w = none ∧ src = filepath ∧
    (∀ env, get_api_key env = .ok ak → get_endpoint env = .ok ep →
      local_main env filepath fs post det net answer = 0) := by
  obtain ⟨hfsrc, hsrc, p, hpr, hw⟩ :=
    translate_file_ok filepath fs post det ak ep net answer src out w h
  refine ⟨?_, hsrc, ?_⟩
  · rw [hfs, if_pos rfl, if_neg hans] at hw
    exact hw
  · intro env hak hep
    simp [local_main, hak, hep, h]

/-- C8 witness: declining the overwrite writes nothing and exits 0. -/
theorem claim8_witness :
    strToLower "N" ≠ "y" ∧
    local_main sampleEnv samplePath (fun _ => true) samplePost (Except.ok "en")
      (goodNet "nihao") "N" = 0 :=
  ⟨by decide,
   (claim8_decline_no_write samplePath (fun _ => true) samplePost (Except.ok "en")
      "k" "ep" (goodNet "nihao") "N" samplePath
      ⟨"content/en/posts", "hello.zh-cn", ".md"⟩ none (by decide) rfl rfl).2.2
      sampleEnv rfl rfl⟩

end TranslateScripts
